import Mathlib

/-!
# Syncer1: the v1 document-list synchronisation protocol of libgrive

A shallow embedding of `libgrive/src/drive/Syncer1.cc` (namespace `gr::v1`):
`DeleteRemote`, `Download`, `EditContent`, `Create` and `Upload`.

The HTTP agent (`m_http`) is a parameter: a record of state-passing functions,
each of which either returns a reply or raises a `gr::Exception`.  Every
operation returns, besides its outcome, the ordered list of the effects it
performed (transport requests with their results, seeks, sleeps, log lines,
calls of `os::SetFileTime`).  The `while ( true )` loop of `Upload` is unrolled
by a fuel argument; an outcome of `none` means that the loop was still
retrying when the fuel ran out.
-/

namespace Syncer1

/-! ## Collaborators that the translation unit only uses -/

/-- Modelled from the spec: the class `DateTime` (seconds and nanoseconds); its
default-constructed value `DateTime()` is the sentinel "unset" time. -/
structure DateTime where
  sec : Int
  nsec : Nat
deriving DecidableEq, Repr

/-- The value of the default constructor `DateTime()`. -/
def DateTime.zero : DateTime := ⟨0, 0⟩

/-- A `gr::Exception`: the string attached under the error-info tag
`xml::TreeBuilder::ExpatApiError` (if any) and the remaining diagnostic text. -/
structure Exception where
  expatApiError : Option String
  detail : String
deriving DecidableEq, Repr

/-- The test of both catch blocks of `Upload`:
`info && (*info == "XML_Parse")`. -/
def Exception.isXmlParse (e : Exception) : Bool :=
  match e.expatApiError with
  | some info => info == "XML_Parse"
  | none => false

/-- An `http::Header`: the lines added with `Add`, in order. -/
abbrev Header := List String

/-- What a completed transport call hands back: the status code it returns and
the document delivered to the response sink. -/
structure Reply where
  code : Int
  body : String
deriving DecidableEq, Repr

/-- Equality of the results of transport calls is decidable. -/
instance instDecidableEqAnswer : DecidableEq (Except Exception Reply) := fun a b =>
  match a, b with
  | .ok x, .ok y =>
    if h : x = y then isTrue (by rw [h]) else isFalse (fun h2 => by cases h2; exact h rfl)
  | .error x, .error y =>
    if h : x = y then isTrue (by rw [h]) else isFalse (fun h2 => by cases h2; exact h rfl)
  | .ok _, .error _ => isFalse (fun h2 => by cases h2)
  | .error _, .ok _ => isFalse (fun h2 => by cases h2)

/-- The `File` opened on the resource's path: its size and read cursor. -/
structure File where
  path : String
  size : Nat
  pos : Nat
deriving DecidableEq, Repr

/-- The call `file.Seek( off, SEEK_SET )`. -/
def File.Seek (f : File) (off : Nat) : File := { f with pos := off }

/-- The interface `http::Agent` as used by `Syncer1`.  `PutFile` is the
overload of `Put` that reads its body from a `File`; it also yields the
position at which it leaves the file's read cursor. -/
structure Agent (σ : Type) where
  Get : String → Header → σ → σ × Except Exception Reply
  Post : String → String → Header → σ → σ × Except Exception Reply
  Put : String → String → Header → σ → σ × Except Exception Reply
  PutFile : String → File → Header → σ → σ × Nat × Except Exception Reply
  Custom : String → String → Header → σ → σ × Except Exception Reply
  RedirLocation : σ → String
  Escape : String → String

/-- Modelled from the spec: the entry `Entry1` parsed from a response document,
carrying the server's identifiers, ETag, URIs and modification time. -/
structure Entry1 where
  ResourceID : String
  ETag : String
  SelfHref : String
  ContentSrc : String
  MTime : DateTime
deriving DecidableEq, Repr

/-- Constants and pure helpers declared outside this translation unit:
`feed_base` and `root_create` of `CommonUri.hh`, `xml::Escape`, the size of the
local file at a path, and the constructor `Entry1( xml.Response() )`. -/
structure Env where
  feed_base : String
  root_create : String
  xmlEscape : String → String
  fileSize : String → Nat
  parseEntry : String → Entry1

/-- The values of `Resource::State` that matter here: `sync`, or any other. -/
inductive State where
  | sync
  | other (tag : Nat)
deriving DecidableEq, Repr

/-- The attributes of a `Resource` read through its accessors. -/
structure Attrs where
  Name : String
  Path : String
  ETag : String
  ResourceID : String
  SelfHref : String
  ContentSrc : String
  Kind : String
  MTime : DateTime
  IsFolder : Bool
  IsEditable : Bool
  IsRoot : Bool
  GetState : State
deriving DecidableEq, Repr

/-- A `Resource` with its chain of parents; `orphan` has a null `Parent()`. -/
inductive Resource where
  | orphan (a : Attrs)
  | child (a : Attrs) (parent : Resource)
deriving DecidableEq, Repr

/-- The attributes of the resource itself. -/
def Resource.attrs : Resource → Attrs
  | .orphan a => a
  | .child a _ => a

/-- The accessor `Parent()`. -/
def Resource.Parent : Resource → Option Resource
  | .orphan _ => none
  | .child _ p => some p

/-- Replace the attributes of the resource, keeping its parent. -/
def Resource.withAttrs : Resource → Attrs → Resource
  | .orphan _, a => .orphan a
  | .child _ p, a => .child a p

/-- Modelled from the spec: `Syncer::AssignIDs` copies the entry's identifiers,
ETag and URIs onto the resource. -/
def AssignIDs (res : Resource) (remote : Entry1) : Resource :=
  res.withAttrs { res.attrs with
    ResourceID := remote.ResourceID, ETag := remote.ETag,
    SelfHref := remote.SelfHref, ContentSrc := remote.ContentSrc }

/-- Modelled from the spec: `Syncer::AssignMTime` sets the resource's remote
modification time. -/
def AssignMTime (res : Resource) (mtime : DateTime) : Resource :=
  res.withAttrs { res.attrs with MTime := mtime }

/-! ## Effects and outcomes -/

/-- The body handed to a transport call. -/
inductive Payload where
  | none
  | text (s : String)
  | file (path : String) (pos : Nat)
deriving DecidableEq, Repr

/-- A transport request as issued: method, URI, body and headers.  For a body
read from a file, `pos` is the read cursor at the moment the call is made. -/
structure Request where
  method : String
  uri : String
  payload : Payload
  hdr : Header
deriving DecidableEq, Repr

/-- How a transport call ended: the status code returned, or the exception. -/
inductive Result where
  | status (code : Int)
  | raised (e : Exception)
deriving DecidableEq, Repr

/-- The result recorded for the value an agent call produced. -/
def Result.of : Except Exception Reply → Result
  | .ok r => .status r.code
  | .error e => .raised e

/-- One observable effect, in program order. -/
inductive Event where
  | request (rq : Request) (result : Result)
  | seek (offset : Nat)
  | sleep (secs : Nat)
  | log (text : String) (warning : Bool)
  | setFileTime (path : String) (t : DateTime)
deriving DecidableEq, Repr

/-- How a call ends: it returns a value, an exception leaves it, or one of its
`assert`s fails. -/
inductive Outcome (α : Type) where
  | returned (a : α)
  | threw (e : Exception)
  | assertFailed
deriving DecidableEq, Repr

/-- The result of running an operation: the agent's state and the resource
afterwards, the effects performed, and the outcome. -/
structure Run (σ ω : Type) where
  http : σ
  res : Resource
  trace : List Event
  outcome : ω

/-! ## The operations of `Syncer1.cc` -/

/-- The constant `xml_meta` with `%1%` and `%2%` filled in by `boost::format`. -/
def xml_meta (kind name : String) : String :=
  "<?xml version='1.0' encoding='UTF-8'?>\n" ++
  "<entry xmlns=\"http://www.w3.org/2005/Atom\" xmlns:docs=\"http://schemas.google.com/docs/2007\">" ++
  "<category scheme=\"http://schemas.google.com/g/2005#kind\" " ++
  "term=\"http://schemas.google.com/docs/2007#" ++ kind ++ "\"/>" ++
  "<title>" ++ name ++ "</title>" ++
  "</entry>"

/-- The `try` block of `DeleteRemote`: the refreshing GET, then the step
`AssignIDs( res, Entry1( xml.Response() ) )`, then the DELETE.  An exception
ends the block where it is raised.  The step in the middle is the argument
`assign`, which may itself raise. -/
def DeleteRemoteTry {σ : Type} (assign : Resource → String → Except Exception Resource)
    (agent : Agent σ) (res : Resource) (s : σ) : Run σ (Except Exception Unit) :=
  let hdr : Header := ["If-Match: " ++ res.attrs.ETag]
  let g := agent.Get res.attrs.SelfHref hdr s
  let evGet := Event.request ⟨"GET", res.attrs.SelfHref, .none, hdr⟩ (Result.of g.2)
  match g.2 with
  | .error e => ⟨g.1, res, [evGet], .error e⟩
  | .ok xml =>
    match assign res xml.body with
    | .error e => ⟨g.1, res, [evGet], .error e⟩
    | .ok res1 =>
      let d := agent.Custom "DELETE" res1.attrs.SelfHref hdr g.1
      let evDel := Event.request ⟨"DELETE", res1.attrs.SelfHref, .none, hdr⟩ (Result.of d.2)
      match d.2 with
      | .error e => ⟨d.1, res1, [evGet, evDel], .error e⟩
      | .ok _ => ⟨d.1, res1, [evGet, evDel], .ok ()⟩

/-- The body of `Syncer1::DeleteRemote` for a given `assign` step: the `try`
block, and the handler `catch ( Exception& e )` that only writes a `Trace`
line. -/
def DeleteRemoteWith {σ : Type} (assign : Resource → String → Except Exception Resource)
    (agent : Agent σ) (res : Resource) (s : σ) : Run σ (Outcome Unit) :=
  let t := DeleteRemoteTry assign agent res s
  match t.outcome with
  | .ok _ => ⟨t.http, t.res, t.trace, .returned ()⟩
  | .error _ => ⟨t.http, t.res, t.trace ++ [Event.log "Exception %1% %2%" false], .returned ()⟩

/-- `Syncer1::DeleteRemote`, with `AssignIDs` and the `Entry1` constructor of
the environment as the step between the GET and the DELETE. -/
def DeleteRemote {σ : Type} (env : Env) (agent : Agent σ) (res : Resource) (s : σ) :
    Run σ (Outcome Unit) :=
  DeleteRemoteWith (fun r body => .ok (AssignIDs r (env.parseEntry body))) agent res s

/-- `Syncer1::Download`, writing to the local path `file`. -/
def Download {σ : Type} (agent : Agent σ) (res : Resource) (file : String) (s : σ) :
    Run σ (Outcome Unit) :=
  let g := agent.Get res.attrs.ContentSrc [] s
  let evGet := Event.request ⟨"GET", res.attrs.ContentSrc, .none, []⟩ (Result.of g.2)
  match g.2 with
  | .error e => ⟨g.1, res, [evGet], .threw e⟩
  | .ok reply =>
    if reply.code ≤ 400 then
      if res.attrs.MTime ≠ DateTime.zero then
        ⟨g.1, res, [evGet, Event.setFileTime file res.attrs.MTime], .returned ()⟩
      else
        ⟨g.1, res,
          [evGet, Event.log "encountered zero date time after downloading %1%" true],
          .returned ()⟩
    else
      ⟨g.1, res, [evGet], .returned ()⟩

/-- What one pass through the body of the `while ( true )` loop of `Upload`
(after the `if ( retrying )` prologue) leads to. -/
inductive Attempt (σ : Type) where
  | retry (s : σ) (pos : Nat) (events : List Event)
  | done (s : σ) (events : List Event) (reply : Reply)
  | fatal (s : σ) (events : List Event) (e : Exception)

/-- The body of the loop of `Upload` after the prologue: the metadata request
in its `try` block, then the content PUT in its `try` block, then the test of
the status code. -/
def UploadAttempt {σ : Type} (agent : Agent σ) (link : String) (post : Bool)
    (hdr : Header) (meta : String) (s : σ) (file : File) : Attempt σ :=
  let m := if post then agent.Post link meta hdr s else agent.Put link meta hdr s
  let evMeta := Event.request ⟨if post then "POST" else "PUT", link, .text meta, hdr⟩
    (Result.of m.2)
  match m.2 with
  | .error e =>
    if e.isXmlParse then
      .retry m.1 file.pos [evMeta,
        Event.log "Error parsing pre-upload response XML, retrying whole upload in 5s" true]
    else
      .fatal m.1 [evMeta] e
  | .ok _ =>
    let uphdr : Header := ["Expect:", "Accept:"]
    let uplink := agent.RedirLocation m.1
    let c := agent.PutFile uplink file uphdr m.1
    let evPut := Event.request ⟨"PUT", uplink, .file file.path file.pos, uphdr⟩
      (Result.of c.2.2)
    match c.2.2 with
    | .error e =>
      if e.isXmlParse then
        .retry c.1 c.2.1 [evMeta, evPut,
          Event.log "Error parsing response XML, retrying whole upload in 5s" true]
      else
        .fatal c.1 [evMeta, evPut] e
    | .ok xml =>
      if xml.code = 410 ∨ xml.code = 412 then
        .retry c.1 c.2.1 [evMeta, evPut,
          Event.log "request failed with %1%, retrying whole upload in 5s" true]
      else
        .done c.1 [evMeta, evPut] xml

/-- The loop `while ( true )` of `Upload`, unrolled at most `fuel` times, with
the local variables `retrying` and `file` as arguments. -/
def UploadLoop {σ : Type} (env : Env) (agent : Agent σ) (res : Resource) (link : String)
    (post : Bool) (hdr : Header) (meta : String) :
    Nat → Bool → σ → File → Run σ (Option (Outcome Bool))
  | 0, _, s, _ => ⟨s, res, [], none⟩
  | fuel + 1, retrying, s, file =>
    let file1 := if retrying then file.Seek 0 else file
    let pre := if retrying then [Event.seek 0, Event.sleep 2] else []
    match UploadAttempt agent link post hdr meta s file1 with
    | .retry s1 pos events =>
      let rest := UploadLoop env agent res link post hdr meta fuel true s1
        { file1 with pos := pos }
      ⟨rest.http, rest.res, pre ++ events ++ rest.trace, rest.outcome⟩
    | .fatal s1 events e => ⟨s1, res, pre ++ events, some (.threw e)⟩
    | .done s1 events xml =>
      let responseEntry := env.parseEntry xml.body
      let res1 := AssignIDs res responseEntry
      let res2 := AssignMTime res1 responseEntry.MTime
      ⟨s1, res2,
        pre ++ events ++ (if retrying then [Event.log "upload succeeded on retry" true] else []),
        some (.returned true)⟩

/-- `Syncer1::Upload`: open the file, build the headers and the metadata
document once, then run the loop. -/
def Upload {σ : Type} (env : Env) (agent : Agent σ) (res : Resource) (link : String)
    (post : Bool) (fuel : Nat) (s : σ) : Run σ (Option (Outcome Bool)) :=
  let file : File := ⟨res.attrs.Path, env.fileSize res.attrs.Path, 0⟩
  let hdr : Header :=
    ["Content-Type: application/atom+xml",
     "X-Upload-Content-Type: application/octet-stream",
     "X-Upload-Content-Length: " ++ toString file.size,
     "If-Match: " ++ res.attrs.ETag,
     "Expect:"]
  let meta := xml_meta res.attrs.Kind (env.xmlEscape res.attrs.Name)
  UploadLoop env agent res link post hdr meta fuel false s file

/-- `Syncer1::EditContent`. -/
def EditContent {σ : Type} (env : Env) (agent : Agent σ) (res : Resource) (new_rev : Bool)
    (fuel : Nat) (s : σ) : Run σ (Option (Outcome Bool)) :=
  match res.Parent with
  | none => ⟨s, res, [], some .assertFailed⟩
  | some parent =>
    if parent.attrs.GetState ≠ State.sync then ⟨s, res, [], some .assertFailed⟩
    else if !res.attrs.IsEditable then
      ⟨s, res, [Event.log "Cannot upload %1%: file read-only. %2%" true], some (.returned false)⟩
    else
      Upload env agent res
        (env.feed_base ++ "/" ++ res.attrs.ResourceID ++
          (if new_rev then "?new-revision=true" else ""))
        false fuel s

/-- `Syncer1::Create`. -/
def Create {σ : Type} (env : Env) (agent : Agent σ) (res : Resource)
    (fuel : Nat) (s : σ) : Run σ (Option (Outcome Bool)) :=
  match res.Parent with
  | none => ⟨s, res, [], some .assertFailed⟩
  | some parent =>
    if !parent.attrs.IsFolder then ⟨s, res, [], some .assertFailed⟩
    else if parent.attrs.GetState ≠ State.sync then ⟨s, res, [], some .assertFailed⟩
    else if res.attrs.IsFolder then
      let uri := if !parent.attrs.IsRoot then
          env.feed_base ++ ("/" ++ agent.Escape parent.attrs.ResourceID ++ "/contents")
        else env.feed_base
      let meta := xml_meta "folder" (env.xmlEscape res.attrs.Name)
      let hdr : Header := ["Content-Type: application/atom+xml"]
      let p := agent.Post uri meta hdr s
      let evPost := Event.request ⟨"POST", uri, .text meta, hdr⟩ (Result.of p.2)
      match p.2 with
      | .error e => ⟨p.1, res, [evPost], some (.threw e)⟩
      | .ok xml => ⟨p.1, AssignIDs res (env.parseEntry xml.body), [evPost], some (.returned true)⟩
    else if parent.attrs.IsEditable then
      Upload env agent res
        (env.root_create ++
          (if parent.attrs.ResourceID = "folder:root" then ""
           else "/" ++ parent.attrs.ResourceID ++ "/contents") ++ "?convert=false")
        true fuel s
    else
      ⟨s, res, [Event.log "parent of %1% does not exist: cannot upload" true],
        some (.returned false)⟩

/-! ## Reading a list of effects -/

/-- The transport requests among the effects, in order, with their results. -/
def requestsOf : List Event → List (Request × Result)
  | [] => []
  | .request rq r :: t => (rq, r) :: requestsOf t
  | .seek _ :: t => requestsOf t
  | .sleep _ :: t => requestsOf t
  | .log _ _ :: t => requestsOf t
  | .setFileTime _ _ :: t => requestsOf t

/-- The warnings among the effects. -/
def warningsOf : List Event → List String
  | [] => []
  | .log text true :: t => text :: warningsOf t
  | _ :: t => warningsOf t

/-- The calls of `os::SetFileTime` among the effects. -/
def fileTimesOf : List Event → List (String × DateTime)
  | [] => []
  | .setFileTime path t :: rest => (path, t) :: fileTimesOf rest
  | _ :: rest => fileTimesOf rest

/-! ## Reading the requests of an upload -/

/-- The request is a content PUT: its body is read from the file. -/
def isContentPut (x : Request × Result) : Bool :=
  match x.1.payload with
  | .file _ _ => true
  | _ => false

/-- The request is a metadata request to `link`: a POST when `post` is set and
a PUT otherwise, with a document as its body. -/
def isMetaRequest (post : Bool) (link : String) (x : Request × Result) : Bool :=
  x.1.method == (if post then "POST" else "PUT") && x.1.uri == link &&
    match x.1.payload with
    | .text _ => true
    | _ => false

/-- The call raised the malformed-document error. -/
def raisedXmlParse (r : Result) : Bool :=
  match r with
  | .raised e => e.isXmlParse
  | .status _ => false

/-- The call returned a status code (it did not raise). -/
def returnedStatus (r : Result) : Bool :=
  match r with
  | .status _ => true
  | .raised _ => false

/-- The request ended in a retryable failure: a content PUT that returned 410
or 412, or a request of either phase that raised the malformed-document error. -/
def retryableFailure (x : Request × Result) : Bool :=
  (isContentPut x && (x.2 == .status 410 || x.2 == .status 412)) || raisedXmlParse x.2

/-- The pairs of neighbours of a list, in order. -/
def consecutive {α : Type} : List α → List (α × α)
  | a :: b :: t => (a, b) :: consecutive (b :: t)
  | _ => []

/-- The effects other than log lines. -/
def actionsOf : List Event → List Event
  | [] => []
  | .log _ _ :: t => actionsOf t
  | e :: t => e :: actionsOf t

/-- The effect is a transport request that ended in a retryable failure. -/
def Event.retryable : Event → Bool
  | .request rq r => retryableFailure (rq, r)
  | _ => false

/-! ## A scripted transport, for concrete runs -/

/-- One scripted answer of the transport: a reply (status code, document,
redirect location) or an exception; `advance` is how far a body read from a file
moves the read cursor. -/
inductive Scripted where
  | reply (code : Int) (body : String) (location : String) (advance : Nat)
  | raise (e : Exception) (advance : Nat)
deriving DecidableEq, Repr

/-- The state of the scripted transport: the redirect location of the last
reply and the answers still to be given. -/
structure ScriptState where
  location : String
  script : List Scripted
deriving DecidableEq, Repr

/-- The exception a scripted transport raises once its script is used up. -/
def scriptExhausted : Exception := ⟨none, "no scripted answer left"⟩

/-- Answer a request from the script, whatever the request is. -/
def ScriptState.answer (st : ScriptState) : ScriptState × Nat × Except Exception Reply :=
  match st.script with
  | [] => (st, 0, .error scriptExhausted)
  | .reply code body location advance :: rest => (⟨location, rest⟩, advance, .ok ⟨code, body⟩)
  | .raise e advance :: rest => (⟨st.location, rest⟩, advance, .error e)

/-- The transport that answers its requests from a script, in order. -/
def scriptAgent : Agent ScriptState where
  Get := fun _ _ st => (st.answer.1, st.answer.2.2)
  Post := fun _ _ _ st => (st.answer.1, st.answer.2.2)
  Put := fun _ _ _ st => (st.answer.1, st.answer.2.2)
  PutFile := fun _ file _ st => (st.answer.1, file.pos + st.answer.2.1, st.answer.2.2)
  Custom := fun _ _ _ st => (st.answer.1, st.answer.2.2)
  RedirLocation := fun st => st.location
  Escape := fun x => x

/-- The scripted answers of one pass through the loop that ends in a retryable
failure: the metadata request raises the malformed-document error; or it
returns and the content PUT raises that error or returns 410 or 412. -/
def retryableAttempt : List Scripted → Bool
  | [.raise e _] => e.isXmlParse
  | [.reply _ _ _ _, .raise e _] => e.isXmlParse
  | [.reply _ _ _ _, .reply c _ _ _] => c == 410 || c == 412
  | _ => false

/-- The scripted answers of a pass in which the metadata request returns and
the content PUT returns a status other than 410 and 412. -/
def completingAttempt : List Scripted → Bool
  | [.reply _ _ _ _, .reply c _ _ _] => !(c == 410 || c == 412)
  | _ => false

/-- The number of metadata requests (requests that are not content PUTs). -/
def metaCount (tr : List Event) : Nat :=
  (requestsOf tr).countP (fun x => !isContentPut x)

/-- The number of content PUTs. -/
def contentCount (tr : List Event) : Nat :=
  (requestsOf tr).countP isContentPut

/-- The number of seeks to the start of the file. -/
def seekCount (tr : List Event) : Nat := tr.count (Event.seek 0)

/-- The number of two-second sleeps. -/
def sleepCount (tr : List Event) : Nat := tr.count (Event.sleep 2)

/-- A sample environment. -/
def sampleEnv : Env where
  feed_base := "https://docs.google.com/feeds/default/private/full"
  root_create := "https://docs.google.com/feeds/upload/create-session/default/private/full"
  xmlEscape := fun x => x
  fileSize := fun _ => 1024
  parseEntry := fun body => ⟨"file:abc123", body, "self", "src", ⟨1, 0⟩⟩

/-- The root folder of the sample tree. -/
def sampleRoot : Resource :=
  .orphan ⟨".", ".", "", "folder:root", "root", "", "folder", DateTime.zero,
    true, true, true, State.sync⟩

/-- A non-root folder of the sample tree. -/
def sampleDir : Resource :=
  .child ⟨"dir", "./dir", "e0", "folder:d1", "href-d1", "", "folder", ⟨5, 0⟩,
    true, true, false, State.sync⟩ sampleRoot

/-- A file directly under the root folder. -/
def sampleFile : Resource :=
  .child ⟨"a.txt", "./a.txt", "e0", "file:f1", "href-f1", "src-f1", "file", ⟨7, 0⟩,
    false, true, false, State.sync⟩ sampleRoot

/-- A file under the root folder whose remote modification time is unset. -/
def sampleFileNoTime : Resource :=
  .child ⟨"b.txt", "./b.txt", "e0", "file:f2", "href-f2", "src-f2", "file", DateTime.zero,
    false, true, false, State.sync⟩ sampleRoot

/-- A read-only file under the root folder. -/
def sampleReadOnly : Resource :=
  .child ⟨"c.txt", "./c.txt", "e0", "file:f3", "href-f3", "src-f3", "file", ⟨7, 0⟩,
    false, false, false, State.sync⟩ sampleRoot

/-- A folder under the root that is not editable. -/
def sampleLocked : Resource :=
  .child ⟨"ro", "./ro", "e0", "folder:d2", "href-d2", "", "folder", ⟨5, 0⟩,
    true, false, false, State.sync⟩ sampleRoot

/-- A malformed-document exception, as raised by the XML tree builder. -/
def xmlParseError : Exception := ⟨some "XML_Parse", "not well-formed"⟩

/-- A transport failure that carries no `ExpatApiError`. -/
def transportError : Exception := ⟨none, "connection reset"⟩

/-! ## Basic facts about reading effects -/

theorem requestsOf_append (a b : List Event) :
    requestsOf (a ++ b) = requestsOf a ++ requestsOf b := by
  induction a with
  | nil => rfl
  | cons e t ih => cases e <;> simp [requestsOf, ih]

/-! ## DeleteRemote -/

/-- C4: for every resource and every behaviour of the transport, `DeleteRemote`
ends by returning normally, never by an exception: an exception of the refresh
GET, of the step that parses and assigns the refreshed entry, or of the DELETE
is caught and suppressed.  When the refresh GET raises, or the step after it
does, the GET is the only request issued, so no DELETE is sent. -/
theorem DeleteRemote_returns_normally {σ : Type} (env : Env) (agent : Agent σ)
    (res : Resource) (s : σ) :
    (DeleteRemote env agent res s).outcome = Outcome.returned () ∧
    (∀ assign : Resource → String → Except Exception Resource,
      (DeleteRemoteWith assign agent res s).outcome = Outcome.returned ()) ∧
    (∀ (assign : Resource → String → Except Exception Resource) (e : Exception),
      (agent.Get res.attrs.SelfHref ["If-Match: " ++ res.attrs.ETag] s).2 = .error e →
      requestsOf (DeleteRemoteWith assign agent res s).trace =
        [(⟨"GET", res.attrs.SelfHref, .none, ["If-Match: " ++ res.attrs.ETag]⟩,
          Result.raised e)]) ∧
    (∀ (assign : Resource → String → Except Exception Resource) (xml : Reply) (e : Exception),
      (agent.Get res.attrs.SelfHref ["If-Match: " ++ res.attrs.ETag] s).2 = .ok xml →
      assign res xml.body = .error e →
      requestsOf (DeleteRemoteWith assign agent res s).trace =
        [(⟨"GET", res.attrs.SelfHref, .none, ["If-Match: " ++ res.attrs.ETag]⟩,
          Result.status xml.code)]) := by
  have hret : ∀ assign : Resource → String → Except Exception Resource,
      (DeleteRemoteWith assign agent res s).outcome = Outcome.returned () := by
    intro assign
    cases h : (DeleteRemoteTry assign agent res s).outcome <;> simp [DeleteRemoteWith, h]
  refine ⟨hret _, hret, ?_, ?_⟩
  · intro assign e he
    simp [DeleteRemoteWith, DeleteRemoteTry, he, requestsOf, Result.of]
  · intro assign xml e hx he
    simp [DeleteRemoteWith, DeleteRemoteTry, hx, he, requestsOf, Result.of]

/-- C4, at a transport whose refresh GET raises: the call returns normally and
the failed GET is the only request. -/
theorem DeleteRemote_returns_normally_witness :
    (DeleteRemote sampleEnv scriptAgent sampleFile
        ⟨"", [.raise transportError 0]⟩).outcome = Outcome.returned () ∧
    requestsOf (DeleteRemote sampleEnv scriptAgent sampleFile
        ⟨"", [.raise transportError 0]⟩).trace =
      [(⟨"GET", "href-f1", .none, ["If-Match: e0"]⟩, Result.raised transportError)] :=
  ⟨(DeleteRemote_returns_normally sampleEnv scriptAgent sampleFile
      ⟨"", [.raise transportError 0]⟩).1,
   (DeleteRemote_returns_normally sampleEnv scriptAgent sampleFile
      ⟨"", [.raise transportError 0]⟩).2.2.1 _ transportError (by decide)⟩

/-! ## Download -/

/-- C5, as stated, fails: the content GET returns status 404 for a resource
whose remote modification time is a real time, and `Download` does not set the
local file's modification time. -/
theorem Download_status_404_sets_no_time :
    (scriptAgent.Get sampleFile.attrs.ContentSrc []
        ⟨"", [.reply 404 "" "" 0]⟩).2 = .ok ⟨404, ""⟩ ∧
    sampleFile.attrs.MTime ≠ DateTime.zero ∧
    fileTimesOf (Download scriptAgent sampleFile "out" ⟨"", [.reply 404 "" "" 0]⟩).trace = [] ∧
    ¬ (("out", sampleFile.attrs.MTime) ∈
          fileTimesOf (Download scriptAgent sampleFile "out" ⟨"", [.reply 404 "" "" 0]⟩).trace ↔
        sampleFile.attrs.MTime ≠ DateTime.zero) := by
  decide

/-- C5, amended: when the content GET returns a status code of at most 400,
`Download` sets the local file's modification time (to the resource's `MTime`,
once) if and only if that time is not the default `DateTime()`, and when it is
the default no time is set and exactly one warning is recorded; when the status
code is above 400, no time is set and no warning is recorded. -/
theorem Download_sets_time_iff {σ : Type} (agent : Agent σ) (res : Resource)
    (file : String) (s : σ) (reply : Reply)
    (hget : (agent.Get res.attrs.ContentSrc [] s).2 = .ok reply) :
    (reply.code ≤ 400 →
      (fileTimesOf (Download agent res file s).trace = [(file, res.attrs.MTime)] ↔
        res.attrs.MTime ≠ DateTime.zero) ∧
      (res.attrs.MTime ≠ DateTime.zero →
        warningsOf (Download agent res file s).trace = []) ∧
      (res.attrs.MTime = DateTime.zero →
        fileTimesOf (Download agent res file s).trace = [] ∧
        warningsOf (Download agent res file s).trace =
          ["encountered zero date time after downloading %1%"])) ∧
    (400 < reply.code →
      fileTimesOf (Download agent res file s).trace = [] ∧
      warningsOf (Download agent res file s).trace = []) ∧
    (Download agent res file s).outcome = Outcome.returned () := by
  refine ⟨?_, ?_, ?_⟩
  · intro hc
    by_cases hm : res.attrs.MTime = DateTime.zero
    · simp [Download, hget, hc, hm, fileTimesOf, warningsOf]
    · simp [Download, hget, hc, hm, fileTimesOf, warningsOf]
  · intro hc
    have hc2 : ¬ reply.code ≤ 400 := not_le.mpr hc
    simp [Download, hget, hc2, fileTimesOf, warningsOf]
  · unfold Download
    simp only [hget]
    split_ifs <;> rfl

/-- C5, amended, at a GET that returns 200: for a resource with a real time the
time is set, and for a resource whose time is unset the warning is recorded. -/
theorem Download_sets_time_iff_witness :
    (fileTimesOf (Download scriptAgent sampleFile "out" ⟨"", [.reply 200 "" "" 0]⟩).trace =
      [("out", sampleFile.attrs.MTime)] ↔ sampleFile.attrs.MTime ≠ DateTime.zero) ∧
    (fileTimesOf (Download scriptAgent sampleFileNoTime "out"
        ⟨"", [.reply 200 "" "" 0]⟩).trace = [] ∧
      warningsOf (Download scriptAgent sampleFileNoTime "out"
        ⟨"", [.reply 200 "" "" 0]⟩).trace =
        ["encountered zero date time after downloading %1%"]) :=
  ⟨((Download_sets_time_iff scriptAgent sampleFile "out" ⟨"", [.reply 200 "" "" 0]⟩
      ⟨200, ""⟩ (by decide)).1 (by decide)).1,
   ((Download_sets_time_iff scriptAgent sampleFileNoTime "out" ⟨"", [.reply 200 "" "" 0]⟩
      ⟨200, ""⟩ (by decide)).1 (by decide)).2.2 (by decide)⟩

/-! ## Create and EditContent -/

set_option maxRecDepth 100000 in
/-- C6, as stated, fails: for a folder under a synced root folder the POST
raises a transport error; `Create` has issued its one POST to `feed_base`, and
the exception leaves the call, which therefore does not return true. -/
theorem Create_folder_post_raises :
    sampleDir.attrs.IsFolder = true ∧
    sampleDir.Parent = some sampleRoot ∧
    sampleRoot.attrs.IsFolder = true ∧
    sampleRoot.attrs.GetState = State.sync ∧
    requestsOf (Create sampleEnv scriptAgent sampleDir 1 ⟨"", [.raise transportError 0]⟩).trace =
      [(⟨"POST", sampleEnv.feed_base, .text (xml_meta "folder" "dir"),
          ["Content-Type: application/atom+xml"]⟩, Result.raised transportError)] ∧
    (Create sampleEnv scriptAgent sampleDir 1 ⟨"", [.raise transportError 0]⟩).outcome =
      some (Outcome.threw transportError) ∧
    (Create sampleEnv scriptAgent sampleDir 1 ⟨"", [.raise transportError 0]⟩).outcome ≠
      some (Outcome.returned true) := by
  decide

/-- C6, amended: for every folder resource whose parent exists, is a folder
and is in state sync, `Create` issues exactly one request, a POST whose URI is
`feed_base` when the parent is the root and
`feed_base + "/" + Escape(parent ResourceID) + "/contents"` otherwise; when
that POST returns, the call returns true, and when it raises, the exception
leaves the call. -/
theorem Create_folder_posts_once {σ : Type} (env : Env) (agent : Agent σ)
    (res parent : Resource) (fuel : Nat) (s : σ) (uri : String)
    (hparent : res.Parent = some parent)
    (hpfolder : parent.attrs.IsFolder = true)
    (hpsync : parent.attrs.GetState = State.sync)
    (hfolder : res.attrs.IsFolder = true)
    (huri : uri = if parent.attrs.IsRoot = true then env.feed_base
      else env.feed_base ++ "/" ++ agent.Escape parent.attrs.ResourceID ++ "/contents") :
    requestsOf (Create env agent res fuel s).trace =
      [(⟨"POST", uri, .text (xml_meta "folder" (env.xmlEscape res.attrs.Name)),
          ["Content-Type: application/atom+xml"]⟩,
        Result.of (agent.Post uri (xml_meta "folder" (env.xmlEscape res.attrs.Name))
          ["Content-Type: application/atom+xml"] s).2)] ∧
    (∀ xml, (agent.Post uri (xml_meta "folder" (env.xmlEscape res.attrs.Name))
          ["Content-Type: application/atom+xml"] s).2 = .ok xml →
      (Create env agent res fuel s).outcome = some (Outcome.returned true)) ∧
    (∀ e, (agent.Post uri (xml_meta "folder" (env.xmlEscape res.attrs.Name))
          ["Content-Type: application/atom+xml"] s).2 = .error e →
      (Create env agent res fuel s).outcome = some (Outcome.threw e)) := by
  have hcode : (if (!parent.attrs.IsRoot) = true then
        env.feed_base ++ ("/" ++ agent.Escape parent.attrs.ResourceID ++ "/contents")
      else env.feed_base) = uri := by
    rw [huri]
    cases parent.attrs.IsRoot <;> simp [String.append_assoc]
  refine ⟨?_, ?_, ?_⟩
  · simp only [Create, hparent, hpfolder, hpsync, hfolder, hcode]
    cases h : (agent.Post uri (xml_meta "folder" (env.xmlEscape res.attrs.Name))
      ["Content-Type: application/atom+xml"] s).2 <;> simp [requestsOf, h]
  · intro xml h
    simp only [Create, hparent, hpfolder, hpsync, hfolder, hcode]
    simp [h]
  · intro e h
    simp only [Create, hparent, hpfolder, hpsync, hfolder, hcode]
    simp [h]

/-- C6, amended, at a folder under a non-root folder whose POST returns 201. -/
theorem Create_folder_posts_once_witness :
    requestsOf (Create sampleEnv scriptAgent (.child sampleDir.attrs sampleDir) 1
        ⟨"", [.reply 201 "e1" "" 0]⟩).trace =
      [(⟨"POST", "https://docs.google.com/feeds/default/private/full/folder:d1/contents",
          .text (xml_meta "folder" "dir"), ["Content-Type: application/atom+xml"]⟩,
        Result.status 201)] ∧
    (Create sampleEnv scriptAgent (.child sampleDir.attrs sampleDir) 1
        ⟨"", [.reply 201 "e1" "" 0]⟩).outcome = some (Outcome.returned true) :=
  ⟨(Create_folder_posts_once sampleEnv scriptAgent (.child sampleDir.attrs sampleDir)
      sampleDir 1 ⟨"", [.reply 201 "e1" "" 0]⟩
      "https://docs.google.com/feeds/default/private/full/folder:d1/contents"
      rfl rfl rfl rfl (by decide)).1,
   (Create_folder_posts_once sampleEnv scriptAgent (.child sampleDir.attrs sampleDir)
      sampleDir 1 ⟨"", [.reply 201 "e1" "" 0]⟩
      "https://docs.google.com/feeds/default/private/full/folder:d1/contents"
      rfl rfl rfl rfl (by decide)).2.1 ⟨201, "e1"⟩ (by decide)⟩

/-- C7: for every non-folder resource whose parent is an editable folder in
state sync, `Create` is the call of `Upload` with `post = true` and the link
`root_create + "?convert=false"` when the parent is the root folder (its
resource ID is "folder:root"), and
`root_create + "/" + parentID + "/contents" + "?convert=false"` when it is not;
either link ends with "?convert=false". -/
theorem Create_file_delegates_to_Upload {σ : Type} (env : Env) (agent : Agent σ)
    (res parent : Resource) (fuel : Nat) (s : σ) (link : String)
    (hparent : res.Parent = some parent)
    (hpfolder : parent.attrs.IsFolder = true)
    (hpsync : parent.attrs.GetState = State.sync)
    (hpedit : parent.attrs.IsEditable = true)
    (hfile : res.attrs.IsFolder = false)
    (hlink : link = if parent.attrs.ResourceID = "folder:root"
      then env.root_create ++ "?convert=false"
      else env.root_create ++ "/" ++ parent.attrs.ResourceID ++ "/contents" ++
        "?convert=false") :
    Create env agent res fuel s = Upload env agent res link true fuel s ∧
    ∃ front, link = front ++ "?convert=false" := by
  constructor
  · have hcode : env.root_create ++
        (if parent.attrs.ResourceID = "folder:root" then ""
          else "/" ++ parent.attrs.ResourceID ++ "/contents") ++ "?convert=false" = link := by
      rw [hlink]
      split_ifs <;> simp [String.append_assoc]
    simp [Create, hparent, hpfolder, hpsync, hpedit, hfile, hcode]
  · rw [hlink]
    split_ifs
    · exact ⟨_, rfl⟩
    · exact ⟨_, rfl⟩

/-- C7, at a file directly under the root folder. -/
theorem Create_file_delegates_to_Upload_witness :
    Create sampleEnv scriptAgent sampleFile 3 ⟨"", []⟩ =
      Upload sampleEnv scriptAgent sampleFile
        "https://docs.google.com/feeds/upload/create-session/default/private/full?convert=false"
        true 3 ⟨"", []⟩ :=
  (Create_file_delegates_to_Upload sampleEnv scriptAgent sampleFile sampleRoot 3 ⟨"", []⟩
    "https://docs.google.com/feeds/upload/create-session/default/private/full?convert=false"
    rfl rfl rfl rfl rfl (by decide)).1

/-- C8: policy refusals issue no transport request and return false without
raising, leaving the resource and the transport as they were: `EditContent` on
a non-editable resource whose parent is in state sync, for either value of
`new_rev`; and `Create` on a non-folder resource whose parent is a folder in
state sync and is not editable. -/
theorem policy_refusal_no_request {σ : Type} (env : Env) (agent : Agent σ)
    (res parent : Resource) (fuel : Nat) (s : σ)
    (hparent : res.Parent = some parent)
    (hpsync : parent.attrs.GetState = State.sync) :
    (res.attrs.IsEditable = false → ∀ new_rev : Bool,
      requestsOf (EditContent env agent res new_rev fuel s).trace = [] ∧
      (EditContent env agent res new_rev fuel s).outcome = some (Outcome.returned false) ∧
      (EditContent env agent res new_rev fuel s).res = res ∧
      (EditContent env agent res new_rev fuel s).http = s) ∧
    (parent.attrs.IsFolder = true → res.attrs.IsFolder = false →
      parent.attrs.IsEditable = false →
      requestsOf (Create env agent res fuel s).trace = [] ∧
      (Create env agent res fuel s).outcome = some (Outcome.returned false) ∧
      (Create env agent res fuel s).res = res ∧
      (Create env agent res fuel s).http = s) := by
  constructor
  · intro hed new_rev
    simp [EditContent, hparent, hpsync, hed, requestsOf]
  · intro hpf hf hpe
    simp [Create, hparent, hpsync, hpf, hf, hpe, requestsOf]

/-- C8, at a read-only file (for `EditContent`) and at a file whose parent
folder is not editable (for `Create`). -/
theorem policy_refusal_no_request_witness :
    (requestsOf (EditContent sampleEnv scriptAgent sampleReadOnly true 3
        ⟨"", [.reply 200 "" "" 0]⟩).trace = [] ∧
      (EditContent sampleEnv scriptAgent sampleReadOnly true 3
        ⟨"", [.reply 200 "" "" 0]⟩).outcome = some (Outcome.returned false)) ∧
    (requestsOf (Create sampleEnv scriptAgent (.child sampleFile.attrs sampleLocked) 3
        ⟨"", [.reply 200 "" "" 0]⟩).trace = [] ∧
      (Create sampleEnv scriptAgent (.child sampleFile.attrs sampleLocked) 3
        ⟨"", [.reply 200 "" "" 0]⟩).outcome = some (Outcome.returned false)) :=
  ⟨⟨((policy_refusal_no_request sampleEnv scriptAgent sampleReadOnly sampleRoot 3
        ⟨"", [.reply 200 "" "" 0]⟩ rfl rfl).1 rfl true).1,
    ((policy_refusal_no_request sampleEnv scriptAgent sampleReadOnly sampleRoot 3
        ⟨"", [.reply 200 "" "" 0]⟩ rfl rfl).1 rfl true).2.1⟩,
   ⟨((policy_refusal_no_request sampleEnv scriptAgent (.child sampleFile.attrs sampleLocked)
        sampleLocked 3 ⟨"", [.reply 200 "" "" 0]⟩ rfl rfl).2 rfl rfl rfl).1,
    ((policy_refusal_no_request sampleEnv scriptAgent (.child sampleFile.attrs sampleLocked)
        sampleLocked 3 ⟨"", [.reply 200 "" "" 0]⟩ rfl rfl).2 rfl rfl rfl).2.1⟩⟩

/-! ## Upload: one pass through the loop body -/

/-- The six ways one pass through the loop body can go, with the effects of
each. -/
theorem UploadAttempt_cases {σ : Type} (agent : Agent σ) (link : String) (post : Bool)
    (hdr : Header) (meta : String) (s : σ) (file : File) :
    (∃ s1 e w, e.isXmlParse = true ∧
      UploadAttempt agent link post hdr meta s file = .retry s1 file.pos
        [.request ⟨if post then "POST" else "PUT", link, .text meta, hdr⟩ (.raised e),
         .log w true]) ∨
    (∃ s1 e, e.isXmlParse = false ∧
      UploadAttempt agent link post hdr meta s file = .fatal s1
        [.request ⟨if post then "POST" else "PUT", link, .text meta, hdr⟩ (.raised e)] e) ∨
    (∃ s1 c0 u pos e w, e.isXmlParse = true ∧
      UploadAttempt agent link post hdr meta s file = .retry s1 pos
        [.request ⟨if post then "POST" else "PUT", link, .text meta, hdr⟩ (.status c0),
         .request ⟨"PUT", u, .file file.path file.pos, ["Expect:", "Accept:"]⟩ (.raised e),
         .log w true]) ∨
    (∃ s1 c0 u e, e.isXmlParse = false ∧
      UploadAttempt agent link post hdr meta s file = .fatal s1
        [.request ⟨if post then "POST" else "PUT", link, .text meta, hdr⟩ (.status c0),
         .request ⟨"PUT", u, .file file.path file.pos, ["Expect:", "Accept:"]⟩ (.raised e)]
        e) ∨
    (∃ s1 c0 u pos c w, (c = 410 ∨ c = 412) ∧
      UploadAttempt agent link post hdr meta s file = .retry s1 pos
        [.request ⟨if post then "POST" else "PUT", link, .text meta, hdr⟩ (.status c0),
         .request ⟨"PUT", u, .file file.path file.pos, ["Expect:", "Accept:"]⟩ (.status c),
         .log w true]) ∨
    (∃ s1 c0 u xml, (xml.code ≠ 410 ∧ xml.code ≠ 412) ∧
      UploadAttempt agent link post hdr meta s file = .done s1
        [.request ⟨if post then "POST" else "PUT", link, .text meta, hdr⟩ (.status c0),
         .request ⟨"PUT", u, .file file.path file.pos, ["Expect:", "Accept:"]⟩
           (.status xml.code)]
        xml) := by
  unfold UploadAttempt
  generalize (if post = true then agent.Post link meta hdr s
    else agent.Put link meta hdr s) = m
  rcases m with ⟨s1, r1⟩
  cases r1 with
  | error e =>
    cases hx : e.isXmlParse
    · right; left
      exact ⟨s1, e, hx, by simp [hx, Result.of]⟩
    · left
      exact ⟨s1, e, _, hx, by simp only [hx, Result.of, if_true]; rfl⟩
  | ok r0 =>
    right; right
    simp only []
    generalize agent.PutFile (agent.RedirLocation s1) file ["Expect:", "Accept:"] s1 = c
    rcases c with ⟨s2, pos, r2⟩
    cases r2 with
    | error e =>
      cases hx : e.isXmlParse
      · right; left
        exact ⟨s2, r0.code, agent.RedirLocation s1, e, hx, by simp [hx, Result.of]⟩
      · left
        exact ⟨s2, r0.code, agent.RedirLocation s1, pos, e, _, hx,
          by simp only [hx, Result.of, if_true]; rfl⟩
    | ok xml =>
      right; right
      by_cases h4 : xml.code = 410 ∨ xml.code = 412
      · left
        exact ⟨s2, r0.code, agent.RedirLocation s1, pos, xml.code, _, h4,
          by simp only [h4, Result.of, if_true]; rfl⟩
      · right
        exact ⟨s2, r0.code, agent.RedirLocation s1, xml, not_or.mp h4,
          by simp only [h4, Result.of, if_false]⟩

/-! ## Upload: the loop -/

theorem requestsOf_prologue (retrying : Bool) :
    requestsOf (if retrying = true then [Event.seek 0, Event.sleep 2] else []) = [] := by
  cases retrying <;> rfl

theorem requestsOf_epilogue (retrying : Bool) :
    requestsOf (if retrying = true then [Event.log "upload succeeded on retry" true] else [])
      = [] := by
  cases retrying <;> rfl

/-- Every metadata request of the loop is the one built before the loop, and
the resource is only changed by the pass that ends the loop with success. -/
theorem UploadLoop_meta_fixed {σ : Type} (env : Env) (agent : Agent σ) (res : Resource)
    (link : String) (post : Bool) (hdr : Header) (meta : String) :
    ∀ (fuel : Nat) (retrying : Bool) (s : σ) (file : File),
      (∀ x ∈ requestsOf (UploadLoop env agent res link post hdr meta fuel retrying s file).trace,
        isContentPut x = false →
          x.1 = ⟨if post then "POST" else "PUT", link, .text meta, hdr⟩) ∧
      ((UploadLoop env agent res link post hdr meta fuel retrying s file).outcome ≠
          some (Outcome.returned true) →
        (UploadLoop env agent res link post hdr meta fuel retrying s file).res = res) := by
  intro fuel
  induction fuel with
  | zero => intro retrying s file; simp [UploadLoop, requestsOf]
  | succ n ih =>
    intro retrying s file
    rcases UploadAttempt_cases agent link post hdr meta s
      (if retrying then file.Seek 0 else file) with
      ⟨s1, e, w, _, h⟩ | ⟨s1, e, _, h⟩ | ⟨s1, c0, u, pos, e, w, _, h⟩ | ⟨s1, c0, u, e, _, h⟩ |
      ⟨s1, c0, u, pos, c, w, _, h⟩ | ⟨s1, c0, u, xml, _, h⟩
    all_goals
      simp only [UploadLoop, h, requestsOf_append, requestsOf_prologue, requestsOf_epilogue,
        requestsOf, List.nil_append, List.append_nil]
    all_goals first
      | (refine ⟨?_, fun hne => ?_⟩
         · intro x hx hc
           simp only [List.cons_append, List.nil_append, List.mem_cons] at hx
           rcases hx with rfl | hx
           · rfl
           · first
               | exact (ih _ _ _).1 x hx hc
               | (rcases hx with rfl | hx
                  · simp [isContentPut] at hc
                  · exact (ih _ _ _).1 x hx hc)
         · exact (ih _ _ _).2 hne)
      | simp [isContentPut]

/-- C10: within one `Upload` call every metadata request (every request that is
not a content PUT) is the same request: the method given by `post`, the URI
`link`, the metadata document and the five headers, all built from the
resource as it is on entry; and a run that has not ended in success, whatever
the number of passes that ended in a retry, leaves the resource as it was. -/
theorem Upload_metadata_requests_identical {σ : Type} (env : Env) (agent : Agent σ)
    (res : Resource) (link : String) (post : Bool) (fuel : Nat) (s : σ) :
    (∀ x ∈ requestsOf (Upload env agent res link post fuel s).trace,
      isContentPut x = false →
        x.1 = ⟨if post then "POST" else "PUT", link,
          .text (xml_meta res.attrs.Kind (env.xmlEscape res.attrs.Name)),
          ["Content-Type: application/atom+xml",
           "X-Upload-Content-Type: application/octet-stream",
           "X-Upload-Content-Length: " ++ toString (env.fileSize res.attrs.Path),
           "If-Match: " ++ res.attrs.ETag,
           "Expect:"]⟩) ∧
    ((Upload env agent res link post fuel s).outcome ≠ some (Outcome.returned true) →
      (Upload env agent res link post fuel s).res = res) :=
  UploadLoop_meta_fixed env agent res link post _ _ fuel false s _

/-- How the loop can end: never by returning false or by a failed assertion;
an exception that leaves it is not the malformed-document error and was raised
by the last request; and a request that raised any other exception is the last
one, its exception leaving the loop. -/
theorem UploadLoop_outcome {σ : Type} (env : Env) (agent : Agent σ) (res : Resource)
    (link : String) (post : Bool) (hdr : Header) (meta : String) :
    ∀ (fuel : Nat) (retrying : Bool) (s : σ) (file : File),
      ((UploadLoop env agent res link post hdr meta fuel retrying s file).outcome = none ∨
        (UploadLoop env agent res link post hdr meta fuel retrying s file).outcome =
          some (Outcome.returned true) ∨
        ∃ e, (UploadLoop env agent res link post hdr meta fuel retrying s file).outcome =
            some (Outcome.threw e) ∧ e.isXmlParse = false ∧
          ∃ front rq,
            requestsOf (UploadLoop env agent res link post hdr meta fuel retrying s file).trace =
              front ++ [(rq, Result.raised e)]) ∧
      (∀ rq e,
        (rq, Result.raised e) ∈
            requestsOf (UploadLoop env agent res link post hdr meta fuel retrying s file).trace →
          e.isXmlParse = false →
        (UploadLoop env agent res link post hdr meta fuel retrying s file).outcome =
            some (Outcome.threw e) ∧
          ∃ front,
            requestsOf (UploadLoop env agent res link post hdr meta fuel retrying s file).trace =
              front ++ [(rq, Result.raised e)]) := by
  intro fuel
  induction fuel with
  | zero => intro retrying s file; simp [UploadLoop, requestsOf]
  | succ n ih =>
    intro retrying s file
    rcases UploadAttempt_cases agent link post hdr meta s
      (if retrying then file.Seek 0 else file) with
      ⟨s1, e, w, hx, h⟩ | ⟨s1, e, hx, h⟩ | ⟨s1, c0, u, pos, e, w, hx, h⟩ |
      ⟨s1, c0, u, e, hx, h⟩ | ⟨s1, c0, u, pos, c, w, hx, h⟩ | ⟨s1, c0, u, xml, hx, h⟩
    all_goals
      simp only [UploadLoop, h, requestsOf_append, requestsOf_prologue, requestsOf_epilogue,
        requestsOf, List.nil_append, List.append_nil]
    · -- the metadata request raised the malformed-document error
      refine ⟨?_, ?_⟩
      · rcases (ih true s1 _).1 with h1 | h1 | ⟨e1, h1, h2, front, rq, h3⟩
        · exact Or.inl h1
        · exact Or.inr (Or.inl h1)
        · exact Or.inr (Or.inr ⟨e1, h1, h2, _ :: front, rq, by rw [h3]; rfl⟩)
      · intro rq e1 hmem he1
        simp only [List.cons_append, List.nil_append, List.mem_cons, Prod.mk.injEq,
          Result.raised.injEq] at hmem
        rcases hmem with ⟨_, rfl⟩ | hmem
        · rw [hx] at he1; cases he1
        · obtain ⟨h1, front, h3⟩ := (ih true s1 _).2 rq e1 hmem he1
          exact ⟨h1, _ :: front, by rw [h3]; rfl⟩
    · -- the metadata request raised another exception
      refine ⟨Or.inr (Or.inr ⟨e, rfl, hx, [], _, rfl⟩), ?_⟩
      intro rq e1 hmem _
      simp only [List.mem_singleton, Prod.mk.injEq, Result.raised.injEq] at hmem
      obtain ⟨rfl, rfl⟩ := hmem
      exact ⟨rfl, [], rfl⟩
    · -- the content PUT raised the malformed-document error
      refine ⟨?_, ?_⟩
      · rcases (ih true s1 _).1 with h1 | h1 | ⟨e1, h1, h2, front, rq, h3⟩
        · exact Or.inl h1
        · exact Or.inr (Or.inl h1)
        · exact Or.inr (Or.inr ⟨e1, h1, h2, _ :: _ :: front, rq, by rw [h3]; rfl⟩)
      · intro rq e1 hmem he1
        simp only [List.cons_append, List.nil_append, List.mem_cons, Prod.mk.injEq,
          Result.raised.injEq, reduceCtorEq, and_false, false_or] at hmem
        rcases hmem with ⟨_, rfl⟩ | hmem
        · rw [hx] at he1; cases he1
        · obtain ⟨h1, front, h3⟩ := (ih true s1 _).2 rq e1 hmem he1
          exact ⟨h1, _ :: _ :: front, by rw [h3]; rfl⟩
    · -- the content PUT raised another exception
      refine ⟨Or.inr (Or.inr ⟨e, rfl, hx, [_], _, rfl⟩), ?_⟩
      intro rq e1 hmem _
      simp only [List.mem_cons, Prod.mk.injEq, reduceCtorEq, and_false, false_or,
        Result.raised.injEq, List.mem_singleton, List.not_mem_nil, or_false] at hmem
      obtain ⟨rfl, rfl⟩ := hmem
      exact ⟨rfl, [_], rfl⟩
    · -- the content PUT returned 410 or 412
      refine ⟨?_, ?_⟩
      · rcases (ih true s1 _).1 with h1 | h1 | ⟨e1, h1, h2, front, rq, h3⟩
        · exact Or.inl h1
        · exact Or.inr (Or.inl h1)
        · exact Or.inr (Or.inr ⟨e1, h1, h2, _ :: _ :: front, rq, by rw [h3]; rfl⟩)
      · intro rq e1 hmem he1
        simp only [List.cons_append, List.nil_append, List.mem_cons, Prod.mk.injEq,
          reduceCtorEq, and_false, false_or] at hmem
        obtain ⟨h1, front, h3⟩ := (ih true s1 _).2 rq e1 hmem he1
        exact ⟨h1, _ :: _ :: front, by rw [h3]; rfl⟩
    · -- the content PUT returned another status
      refine ⟨Or.inr (Or.inl trivial), ?_⟩
      intro rq e1 hmem _
      simp at hmem

/-- C3: for every resource, link, `post` flag and transport, `Upload` never
returns false (nor fails an assertion): while it has not returned true it is
either still retrying or has been left by an exception; such an exception is
not the malformed-document error and is the one raised by the last request
issued; and a request of either phase that raises an exception other than the
malformed-document error is the last request, its exception leaving the call
unchanged (it is neither retried nor swallowed). -/
theorem Upload_never_returns_false {σ : Type} (env : Env) (agent : Agent σ)
    (res : Resource) (link : String) (post : Bool) (fuel : Nat) (s : σ) :
    (Upload env agent res link post fuel s).outcome ≠ some (Outcome.returned false) ∧
    (Upload env agent res link post fuel s).outcome ≠ some Outcome.assertFailed ∧
    (∀ e, (Upload env agent res link post fuel s).outcome = some (Outcome.threw e) →
      e.isXmlParse = false ∧
      ∃ front rq, requestsOf (Upload env agent res link post fuel s).trace =
        front ++ [(rq, Result.raised e)]) ∧
    (∀ rq e, (rq, Result.raised e) ∈ requestsOf (Upload env agent res link post fuel s).trace →
      e.isXmlParse = false →
      (Upload env agent res link post fuel s).outcome = some (Outcome.threw e) ∧
      ∃ front, requestsOf (Upload env agent res link post fuel s).trace =
        front ++ [(rq, Result.raised e)]) := by
  have key := UploadLoop_outcome env agent res link post
    ["Content-Type: application/atom+xml",
     "X-Upload-Content-Type: application/octet-stream",
     "X-Upload-Content-Length: " ++ toString (env.fileSize res.attrs.Path),
     "If-Match: " ++ res.attrs.ETag,
     "Expect:"]
    (xml_meta res.attrs.Kind (env.xmlEscape res.attrs.Name)) fuel false s
    ⟨res.attrs.Path, env.fileSize res.attrs.Path, 0⟩
  refine ⟨?_, ?_, ?_, key.2⟩
  · intro hf
    rcases key.1 with h1 | h1 | ⟨e, h1, _⟩ <;>
      · simp only [Upload] at hf
        rw [hf] at h1
        cases h1
  · intro hf
    rcases key.1 with h1 | h1 | ⟨e, h1, _⟩ <;>
      · simp only [Upload] at hf
        rw [hf] at h1
        cases h1
  · intro e he
    rcases key.1 with h1 | h1 | ⟨e1, h1, h2, h3⟩
    · simp only [Upload] at he
      rw [he] at h1
      cases h1
    · simp only [Upload] at he
      rw [he] at h1
      cases h1
    · simp only [Upload] at he
      rw [he] at h1
      cases h1
      exact ⟨h2, h3⟩

/-! ## Upload: the order of the requests -/

theorem mem_consecutive_cons {α : Type} {a : α} {l : List α} {p : α × α}
    (hp : p ∈ consecutive (a :: l)) :
    (∃ b, l.head? = some b ∧ p = (a, b)) ∨ p ∈ consecutive l := by
  cases l with
  | nil => simp [consecutive] at hp
  | cons b t =>
    simp only [consecutive, List.mem_cons] at hp
    rcases hp with rfl | hp
    · exact Or.inl ⟨b, rfl, rfl⟩
    · exact Or.inr hp

theorem getLast?_cons_of_some {α : Type} {a x : α} {l : List α}
    (h : l.getLast? = some x) : (a :: l).getLast? = some x := by
  cases l with
  | nil => simp at h
  | cons b t => rw [List.getLast?_cons_cons]; exact h

/-- The requests of the loop, in order: the first is a metadata request; a
retryable failure is followed by a metadata request; a content PUT follows a
metadata request that returned; and the loop does not end on a retryable
failure. -/
theorem UploadLoop_request_order {σ : Type} (env : Env) (agent : Agent σ) (res : Resource)
    (link : String) (post : Bool) (hdr : Header) (meta : String) :
    ∀ (fuel : Nat) (retrying : Bool) (s : σ) (file : File),
      (∀ x, (requestsOf (UploadLoop env agent res link post hdr meta fuel retrying s
          file).trace).head? = some x → isMetaRequest post link x = true) ∧
      (∀ p ∈ consecutive (requestsOf (UploadLoop env agent res link post hdr meta fuel
          retrying s file).trace),
        (retryableFailure p.1 = true → isMetaRequest post link p.2 = true) ∧
        (isContentPut p.2 = true →
          isMetaRequest post link p.1 = true ∧ returnedStatus p.1.2 = true)) ∧
      ((UploadLoop env agent res link post hdr meta fuel retrying s file).outcome ≠ none →
        ∃ x, (requestsOf (UploadLoop env agent res link post hdr meta fuel retrying s
          file).trace).getLast? = some x ∧ retryableFailure x = false) := by
  have hM : ∀ r, isMetaRequest post link
      (⟨if post = true then "POST" else "PUT", link, .text meta, hdr⟩, r) = true := by
    intro r
    simp [isMetaRequest]
  intro fuel
  induction fuel with
  | zero => intro retrying s file; simp [UploadLoop, requestsOf, consecutive]
  | succ n ih =>
    intro retrying s file
    rcases UploadAttempt_cases agent link post hdr meta s
      (if retrying then file.Seek 0 else file) with
      ⟨s1, e, w, hx, h⟩ | ⟨s1, e, hx, h⟩ | ⟨s1, c0, u, pos, e, w, hx, h⟩ |
      ⟨s1, c0, u, e, hx, h⟩ | ⟨s1, c0, u, pos, c, w, hx, h⟩ | ⟨s1, c0, u, xml, hx, h⟩
    all_goals
      simp only [UploadLoop, h, requestsOf_append, requestsOf_prologue, requestsOf_epilogue,
        requestsOf, List.nil_append, List.append_nil, List.cons_append]
    · -- the metadata request raised the malformed-document error
      refine ⟨?_, ?_, ?_⟩
      · intro x hx1
        simp only [List.head?_cons, Option.some.injEq] at hx1
        subst hx1
        exact hM _
      · intro p hp
        rcases mem_consecutive_cons hp with ⟨b, hb, rfl⟩ | hp
        · have hb1 := (ih true s1 _).1 b hb
          refine ⟨fun _ => hb1, fun hc => ?_⟩
          simp [isMetaRequest, isContentPut] at hb1 hc
          cases hpl : b.1.payload <;> simp [hpl] at hb1 hc
        · exact (ih true s1 _).2.1 p hp
      · intro hne
        obtain ⟨x, hx1, hx2⟩ := (ih true s1 _).2.2 hne
        exact ⟨x, getLast?_cons_of_some hx1, hx2⟩
    · -- the metadata request raised another exception
      refine ⟨?_, ?_, ?_⟩
      · intro x hx1
        simp only [List.head?_cons, Option.some.injEq] at hx1
        subst hx1
        exact hM _
      · intro p hp
        simp [consecutive] at hp
      · intro _
        exact ⟨_, rfl, by simp [retryableFailure, isContentPut, raisedXmlParse, hx]⟩
    · -- the content PUT raised the malformed-document error
      refine ⟨?_, ?_, ?_⟩
      · intro x hx1
        simp only [List.head?_cons, Option.some.injEq] at hx1
        subst hx1
        exact hM _
      · intro p hp
        rcases mem_consecutive_cons hp with ⟨b, hb, rfl⟩ | hp
        · simp only [List.head?_cons, Option.some.injEq] at hb
          subst hb
          exact ⟨fun hr => by simp [retryableFailure, isContentPut, raisedXmlParse] at hr,
            fun _ => ⟨hM _, rfl⟩⟩
        · rcases mem_consecutive_cons hp with ⟨b, hb, rfl⟩ | hp
          · have hb1 := (ih true s1 _).1 b hb
            refine ⟨fun _ => hb1, fun hc => ?_⟩
            simp [isMetaRequest, isContentPut] at hb1 hc
            cases hpl : b.1.payload <;> simp [hpl] at hb1 hc
          · exact (ih true s1 _).2.1 p hp
      · intro hne
        obtain ⟨x, hx1, hx2⟩ := (ih true s1 _).2.2 hne
        exact ⟨x, getLast?_cons_of_some (getLast?_cons_of_some hx1), hx2⟩
    · -- the content PUT raised another exception
      refine ⟨?_, ?_, ?_⟩
      · intro x hx1
        simp only [List.head?_cons, Option.some.injEq] at hx1
        subst hx1
        exact hM _
      · intro p hp
        simp only [consecutive, List.mem_singleton] at hp
        subst hp
        exact ⟨fun hr => by simp [retryableFailure, isContentPut, raisedXmlParse] at hr,
          fun _ => ⟨hM _, rfl⟩⟩
      · intro _
        exact ⟨_, rfl, by simp [retryableFailure, isContentPut, raisedXmlParse, hx]⟩
    · -- the content PUT returned 410 or 412
      refine ⟨?_, ?_, ?_⟩
      · intro x hx1
        simp only [List.head?_cons, Option.some.injEq] at hx1
        subst hx1
        exact hM _
      · intro p hp
        rcases mem_consecutive_cons hp with ⟨b, hb, rfl⟩ | hp
        · simp only [List.head?_cons, Option.some.injEq] at hb
          subst hb
          exact ⟨fun hr => by simp [retryableFailure, isContentPut, raisedXmlParse] at hr,
            fun _ => ⟨hM _, rfl⟩⟩
        · rcases mem_consecutive_cons hp with ⟨b, hb, rfl⟩ | hp
          · have hb1 := (ih true s1 _).1 b hb
            refine ⟨fun _ => hb1, fun hc => ?_⟩
            simp [isMetaRequest, isContentPut] at hb1 hc
            cases hpl : b.1.payload <;> simp [hpl] at hb1 hc
          · exact (ih true s1 _).2.1 p hp
      · intro hne
        obtain ⟨x, hx1, hx2⟩ := (ih true s1 _).2.2 hne
        exact ⟨x, getLast?_cons_of_some (getLast?_cons_of_some hx1), hx2⟩
    · -- the content PUT returned another status
      refine ⟨?_, ?_, ?_⟩
      · intro x hx1
        simp only [List.head?_cons, Option.some.injEq] at hx1
        subst hx1
        exact hM _
      · intro p hp
        simp only [consecutive, List.mem_singleton] at hp
        subst hp
        exact ⟨fun hr => by simp [retryableFailure, isContentPut, raisedXmlParse] at hr,
          fun _ => ⟨hM _, rfl⟩⟩
      · intro _
        refine ⟨_, rfl, ?_⟩
        simp [retryableFailure, isContentPut, raisedXmlParse, hx.1, hx.2]

/-- C1: in the requests issued by one `Upload` call, whatever the transport
answers, every retry restarts from the metadata phase: the first request is a
metadata request to `link` (POST when `post` is set, PUT otherwise); a content
PUT that returned 410 or 412, and a request of either phase that raised the
malformed-document error, is followed by such a metadata request, and the call
does not end on it; a content PUT only ever comes right after a metadata
request that returned.  In particular, when the first content PUT returns 412
and the second pass succeeds, exactly two metadata requests and two content
PUTs are issued and the call returns true. -/
theorem Upload_retry_restarts_from_metadata {σ : Type} (env : Env) (agent : Agent σ)
    (res : Resource) (link : String) (post : Bool) (fuel : Nat) (s : σ) :
    (∀ x, (requestsOf (Upload env agent res link post fuel s).trace).head? = some x →
      isMetaRequest post link x = true) ∧
    (∀ p ∈ consecutive (requestsOf (Upload env agent res link post fuel s).trace),
      (retryableFailure p.1 = true → isMetaRequest post link p.2 = true) ∧
      (isContentPut p.2 = true →
        isMetaRequest post link p.1 = true ∧ returnedStatus p.1.2 = true)) ∧
    ((Upload env agent res link post fuel s).outcome ≠ none →
      ∃ x, (requestsOf (Upload env agent res link post fuel s).trace).getLast? = some x ∧
        retryableFailure x = false) ∧
    (∀ (loc : String) (c0 c2 c3 : Int) (b0 b1 b2 b3 l0 l1 l2 l3 : String)
        (a0 a1 a2 a3 : Nat) (rest : List Scripted),
      c3 ≠ 410 → c3 ≠ 412 →
      (Upload env scriptAgent res link post (fuel + 2) ⟨loc,
          .reply c0 b0 l0 a0 :: .reply 412 b1 l1 a1 :: .reply c2 b2 l2 a2 ::
            .reply c3 b3 l3 a3 :: rest⟩).outcome = some (Outcome.returned true) ∧
      metaCount (Upload env scriptAgent res link post (fuel + 2) ⟨loc,
          .reply c0 b0 l0 a0 :: .reply 412 b1 l1 a1 :: .reply c2 b2 l2 a2 ::
            .reply c3 b3 l3 a3 :: rest⟩).trace = 2 ∧
      contentCount (Upload env scriptAgent res link post (fuel + 2) ⟨loc,
          .reply c0 b0 l0 a0 :: .reply 412 b1 l1 a1 :: .reply c2 b2 l2 a2 ::
            .reply c3 b3 l3 a3 :: rest⟩).trace = 2) := by
  refine ⟨(UploadLoop_request_order env agent res link post _ _ fuel false s _).1,
    (UploadLoop_request_order env agent res link post _ _ fuel false s _).2.1,
    (UploadLoop_request_order env agent res link post _ _ fuel false s _).2.2, ?_⟩
  intro loc c0 c2 c3 b0 b1 b2 b3 l0 l1 l2 l3 a0 a1 a2 a3 rest h410 h412
  cases post <;>
    simp [Upload, UploadLoop, UploadAttempt, scriptAgent, ScriptState.answer, Result.of,
      metaCount, contentCount, requestsOf, isContentPut, h410, h412, File.Seek]

/-- C1, at a scripted transport whose first content PUT returns 412: two
metadata POSTs and two content PUTs, then success. -/
theorem Upload_retry_restarts_from_metadata_witness :
    (Upload sampleEnv scriptAgent sampleFile "L" true 2 ⟨"",
        [.reply 200 "" "S" 0, .reply 412 "" "" 1024, .reply 200 "" "S2" 0,
          .reply 201 "e1" "" 1024]⟩).outcome = some (Outcome.returned true) ∧
    metaCount (Upload sampleEnv scriptAgent sampleFile "L" true 2 ⟨"",
        [.reply 200 "" "S" 0, .reply 412 "" "" 1024, .reply 200 "" "S2" 0,
          .reply 201 "e1" "" 1024]⟩).trace = 2 ∧
    contentCount (Upload sampleEnv scriptAgent sampleFile "L" true 2 ⟨"",
        [.reply 200 "" "S" 0, .reply 412 "" "" 1024, .reply 200 "" "S2" 0,
          .reply 201 "e1" "" 1024]⟩).trace = 2 :=
  (Upload_retry_restarts_from_metadata sampleEnv scriptAgent sampleFile "L" true 0
    ⟨"", []⟩).2.2.2 "" 200 200 201 "" "" "" "e1" "S" "" "S2" "" 0 1024 0 1024 []
    (by decide) (by decide)

/-! ## Upload: the read cursor -/

theorem actionsOf_append (a b : List Event) :
    actionsOf (a ++ b) = actionsOf a ++ actionsOf b := by
  induction a with
  | nil => rfl
  | cons e t ih => cases e <;> simp [actionsOf, ih]

theorem actionsOf_prologue (retrying : Bool) :
    actionsOf (if retrying = true then [Event.seek 0, Event.sleep 2] else []) =
      (if retrying = true then [Event.seek 0, Event.sleep 2] else []) := by
  cases retrying <;> rfl

theorem actionsOf_epilogue (retrying : Bool) :
    actionsOf (if retrying = true then [Event.log "upload succeeded on retry" true] else [])
      = [] := by
  cases retrying <;> rfl

theorem forall_consecutive_append {α : Type} {R : α × α → Prop} :
    ∀ (l1 l2 : List α), (∀ p ∈ consecutive l1, R p) → (∀ p ∈ consecutive l2, R p) →
      (∀ a b, l1.getLast? = some a → l2.head? = some b → R (a, b)) →
      ∀ p ∈ consecutive (l1 ++ l2), R p
  | [], l2, _, h2, _ => by simpa using h2
  | [a], l2, _, h2, hj => by
    intro p hp
    rcases mem_consecutive_cons hp with ⟨b, hb, rfl⟩ | hp
    · exact hj a b rfl hb
    · exact h2 p hp
  | a :: b :: t, l2, h1, h2, hj => by
    intro p hp
    simp only [List.cons_append, consecutive, List.mem_cons] at hp
    rcases hp with rfl | hp
    · exact h1 _ (by simp [consecutive])
    · refine forall_consecutive_append (b :: t) l2 ?_ h2 ?_ p hp
      · intro q hq
        exact h1 q (by simp [consecutive, hq])
      · intro x y hx hy
        exact hj x y (by rw [List.getLast?_cons_cons]; exact hx) hy

/-- The read cursor and the order of the actions of the loop: every content PUT
is issued with the cursor at 0; the first action of a retry is the seek to 0;
a retryable failure is followed by the seek to 0, the seek by the sleep, and
the sleep by a metadata request. -/
theorem UploadLoop_cursor {σ : Type} (env : Env) (agent : Agent σ) (res : Resource)
    (link : String) (post : Bool) (hdr : Header) (meta : String) :
    ∀ (fuel : Nat) (retrying : Bool) (s : σ) (file : File),
      (retrying = false → file.pos = 0) →
      (∀ x ∈ requestsOf (UploadLoop env agent res link post hdr meta fuel retrying s
          file).trace, ∀ path pos, x.1.payload = Payload.file path pos → pos = 0) ∧
      (∀ a, (actionsOf (UploadLoop env agent res link post hdr meta fuel retrying s
          file).trace).head? = some a →
        (retrying = true → a = Event.seek 0) ∧
        (retrying = false → ∃ rq r, a = Event.request rq r ∧ isContentPut (rq, r) = false)) ∧
      (∀ p ∈ consecutive (actionsOf (UploadLoop env agent res link post hdr meta fuel
          retrying s file).trace),
        (p.1.retryable = true → p.2 = Event.seek 0) ∧
        (∀ o, p.1 = Event.seek o → o = 0 ∧ p.2 = Event.sleep 2) ∧
        (∀ n, p.1 = Event.sleep n →
          ∃ rq r, p.2 = Event.request rq r ∧ isContentPut (rq, r) = false)) := by
  intro fuel
  induction fuel with
  | zero => intro retrying s file _; simp [UploadLoop, requestsOf, actionsOf, consecutive]
  | succ n ih =>
    intro retrying s file hfile
    have hpos : (if retrying = true then file.Seek 0 else file).pos = 0 := by
      cases retrying
      · simpa using hfile
      · simp [File.Seek]
    simp only [UploadLoop]
    generalize (if retrying = true then file.Seek 0 else file) = file1 at hpos ⊢
    have hpre : ∀ p ∈ consecutive
        (if retrying = true then [Event.seek 0, Event.sleep 2] else []),
        (p.1.retryable = true → p.2 = Event.seek 0) ∧
        (∀ o, p.1 = Event.seek o → o = 0 ∧ p.2 = Event.sleep 2) ∧
        (∀ k, p.1 = Event.sleep k →
          ∃ rq r, p.2 = Event.request rq r ∧ isContentPut (rq, r) = false) := by
      cases retrying <;> simp [consecutive, Event.retryable]
    have hpreLast : ∀ a rq r,
        (if retrying = true then [Event.seek 0, Event.sleep 2] else []).getLast? = some a →
        isContentPut (rq, r) = false →
        (a.retryable = true → Event.request rq r = Event.seek 0) ∧
        (∀ o, a = Event.seek o → o = 0 ∧ Event.request rq r = Event.sleep 2) ∧
        (∀ k, a = Event.sleep k →
          ∃ rq1 r1, Event.request rq r = Event.request rq1 r1 ∧
            isContentPut (rq1, r1) = false) := by
      intro a rq r ha hc
      cases retrying
      · simp at ha
      · simp at ha
        subst ha
        refine ⟨fun h0 => ?_, fun o h0 => ?_, fun k _ => ⟨rq, r, rfl, hc⟩⟩
        · simp [Event.retryable] at h0
        · cases h0
    have hhead : ∀ (rq : Request) (r : Result) (t : List Event) (a : Event),
        ((if retrying = true then [Event.seek 0, Event.sleep 2] else []) ++
          Event.request rq r :: t).head? = some a →
        isContentPut (rq, r) = false →
        (retrying = true → a = Event.seek 0) ∧
        (retrying = false → ∃ rq1 r1, a = Event.request rq1 r1 ∧
          isContentPut (rq1, r1) = false) := by
      intro rq r t a ha hc
      cases retrying
      · simp at ha
        subst ha
        exact ⟨fun h0 => (by cases h0), fun _ => ⟨rq, r, rfl, hc⟩⟩
      · simp at ha
        subst ha
        exact ⟨fun _ => rfl, fun h0 => by cases h0⟩
    rcases UploadAttempt_cases agent link post hdr meta s file1 with
      ⟨s1, e, w, hx, h⟩ | ⟨s1, e, hx, h⟩ | ⟨s1, c0, u, pos, e, w, hx, h⟩ |
      ⟨s1, c0, u, e, hx, h⟩ | ⟨s1, c0, u, pos, c, w, hx, h⟩ | ⟨s1, c0, u, xml, hx, h⟩
    all_goals
      simp only [h, hpos, requestsOf_append, requestsOf_prologue,
        requestsOf_epilogue, requestsOf, actionsOf_append, actionsOf, actionsOf_prologue,
        actionsOf_epilogue, List.nil_append, List.append_nil, List.cons_append,
        List.append_assoc]
    · have IH := ih true s1 ⟨file1.path, file1.size, 0⟩ (fun h0 => by cases h0)
      refine ⟨?_, ?_, ?_⟩
      · intro x hx1 path q hq
        simp only [List.mem_cons] at hx1
        rcases hx1 with rfl | hx1
        · simp at hq
        · exact IH.1 x hx1 path q hq
      · intro a ha
        exact hhead _ _ _ a ha rfl
      · refine forall_consecutive_append _ _ hpre ?_ ?_
        · intro p hp
          rcases mem_consecutive_cons hp with ⟨b, hb, rfl⟩ | hp
          · have hb1 := (IH.2.1 b hb).1 rfl
            subst hb1
            refine ⟨fun _ => rfl, fun o h0 => ?_, fun k h0 => ?_⟩
            · cases h0
            · cases h0
          · exact IH.2.2 p hp
        · intro a b ha hb
          simp only [List.head?_cons, Option.some.injEq] at hb
          subst hb
          exact hpreLast a _ _ ha rfl
    · refine ⟨?_, ?_, ?_⟩
      · intro x hx1 path q hq
        simp only [List.mem_singleton] at hx1
        subst hx1
        simp at hq
      · intro a ha
        exact hhead _ _ _ a ha rfl
      · refine forall_consecutive_append _ _ hpre ?_ ?_
        · intro p hp
          simp [consecutive] at hp
        · intro a b ha hb
          simp only [List.head?_cons, Option.some.injEq] at hb
          subst hb
          exact hpreLast a _ _ ha rfl
    · have IH := ih true s1 ⟨file1.path, file1.size, pos⟩ (fun h0 => by cases h0)
      refine ⟨?_, ?_, ?_⟩
      · intro x hx1 path q hq
        simp only [List.mem_cons] at hx1
        rcases hx1 with rfl | rfl | hx1
        · simp at hq
        · simp at hq
          exact hq.2.symm
        · exact IH.1 x hx1 path q hq
      · intro a ha
        exact hhead _ _ _ a ha rfl
      · refine forall_consecutive_append _ _ hpre ?_ ?_
        · intro p hp
          rcases mem_consecutive_cons hp with ⟨b, hb, rfl⟩ | hp
          · simp only [List.head?_cons, Option.some.injEq] at hb
            subst hb
            refine ⟨fun h0 => ?_, fun o h0 => ?_, fun k h0 => ?_⟩
            · simp [Event.retryable, retryableFailure, isContentPut, raisedXmlParse] at h0
            · cases h0
            · cases h0
          · rcases mem_consecutive_cons hp with ⟨b, hb, rfl⟩ | hp
            · have hb1 := (IH.2.1 b hb).1 rfl
              subst hb1
              refine ⟨fun _ => rfl, fun o h0 => ?_, fun k h0 => ?_⟩
              · cases h0
              · cases h0
            · exact IH.2.2 p hp
        · intro a b ha hb
          simp only [List.head?_cons, Option.some.injEq] at hb
          subst hb
          exact hpreLast a _ _ ha rfl
    · refine ⟨?_, ?_, ?_⟩
      · intro x hx1 path q hq
        simp only [List.mem_cons, List.mem_singleton, List.not_mem_nil, or_false] at hx1
        rcases hx1 with rfl | rfl
        · simp at hq
        · simp at hq
          exact hq.2.symm
      · intro a ha
        exact hhead _ _ _ a ha rfl
      · refine forall_consecutive_append _ _ hpre ?_ ?_
        · intro p hp
          simp only [consecutive, List.mem_singleton] at hp
          subst hp
          refine ⟨fun h0 => ?_, fun o h0 => ?_, fun k h0 => ?_⟩
          · simp [Event.retryable, retryableFailure, isContentPut, raisedXmlParse] at h0
          · cases h0
          · cases h0
        · intro a b ha hb
          simp only [List.head?_cons, Option.some.injEq] at hb
          subst hb
          exact hpreLast a _ _ ha rfl
    · have IH := ih true s1 ⟨file1.path, file1.size, pos⟩ (fun h0 => by cases h0)
      refine ⟨?_, ?_, ?_⟩
      · intro x hx1 path q hq
        simp only [List.mem_cons] at hx1
        rcases hx1 with rfl | rfl | hx1
        · simp at hq
        · simp at hq
          exact hq.2.symm
        · exact IH.1 x hx1 path q hq
      · intro a ha
        exact hhead _ _ _ a ha rfl
      · refine forall_consecutive_append _ _ hpre ?_ ?_
        · intro p hp
          rcases mem_consecutive_cons hp with ⟨b, hb, rfl⟩ | hp
          · simp only [List.head?_cons, Option.some.injEq] at hb
            subst hb
            refine ⟨fun h0 => ?_, fun o h0 => ?_, fun k h0 => ?_⟩
            · simp [Event.retryable, retryableFailure, isContentPut, raisedXmlParse] at h0
            · cases h0
            · cases h0
          · rcases mem_consecutive_cons hp with ⟨b, hb, rfl⟩ | hp
            · have hb1 := (IH.2.1 b hb).1 rfl
              subst hb1
              refine ⟨fun _ => rfl, fun o h0 => ?_, fun k h0 => ?_⟩
              · cases h0
              · cases h0
            · exact IH.2.2 p hp
        · intro a b ha hb
          simp only [List.head?_cons, Option.some.injEq] at hb
          subst hb
          exact hpreLast a _ _ ha rfl
    · refine ⟨?_, ?_, ?_⟩
      · intro x hx1 path q hq
        simp only [List.mem_cons, List.mem_singleton, List.not_mem_nil, or_false] at hx1
        rcases hx1 with rfl | rfl
        · simp at hq
        · simp at hq
          exact hq.2.symm
      · intro a ha
        exact hhead _ _ _ a ha rfl
      · refine forall_consecutive_append _ _ hpre ?_ ?_
        · intro p hp
          simp only [consecutive, List.mem_singleton] at hp
          subst hp
          refine ⟨fun h0 => ?_, fun o h0 => ?_, fun k h0 => ?_⟩
          · simp [Event.retryable, retryableFailure, isContentPut, raisedXmlParse] at h0
          · cases h0
          · cases h0
        · intro a b ha hb
          simp only [List.head?_cons, Option.some.injEq] at hb
          subst hb
          exact hpreLast a _ _ ha rfl

/-- C2: at the moment each content PUT of an `Upload` call is issued the read
cursor of the local file is at offset 0, whatever number of retries came before
and however far the previous content PUT moved the cursor: the call starts
with a metadata request on the freshly opened file, and every retryable
failure is followed by the seek to offset 0, then the sleep, then the metadata
request of the new pass. -/
theorem Upload_content_put_at_offset_zero {σ : Type} (env : Env) (agent : Agent σ)
    (res : Resource) (link : String) (post : Bool) (fuel : Nat) (s : σ) :
    (∀ x ∈ requestsOf (Upload env agent res link post fuel s).trace,
      ∀ path pos, x.1.payload = Payload.file path pos → pos = 0) ∧
    (∀ a, (actionsOf (Upload env agent res link post fuel s).trace).head? = some a →
      ∃ rq r, a = Event.request rq r ∧ isContentPut (rq, r) = false) ∧
    (∀ p ∈ consecutive (actionsOf (Upload env agent res link post fuel s).trace),
      (p.1.retryable = true → p.2 = Event.seek 0) ∧
      (∀ o, p.1 = Event.seek o → o = 0 ∧ p.2 = Event.sleep 2) ∧
      (∀ n, p.1 = Event.sleep n →
        ∃ rq r, p.2 = Event.request rq r ∧ isContentPut (rq, r) = false)) :=
  ⟨(UploadLoop_cursor env agent res link post _ _ fuel false s _ (fun _ => rfl)).1,
   fun a ha =>
    ((UploadLoop_cursor env agent res link post _ _ fuel false s _ (fun _ => rfl)).2.1
      a ha).2 rfl,
   (UploadLoop_cursor env agent res link post _ _ fuel false s _ (fun _ => rfl)).2.2⟩

/-! ## Upload: the number of retries -/

theorem metaCount_append (a b : List Event) :
    metaCount (a ++ b) = metaCount a + metaCount b := by
  simp [metaCount, requestsOf_append, List.countP_append]

theorem seekCount_append (a b : List Event) :
    seekCount (a ++ b) = seekCount a + seekCount b := by
  simp [seekCount, List.count_append]

theorem sleepCount_append (a b : List Event) :
    sleepCount (a ++ b) = sleepCount a + sleepCount b := by
  simp [sleepCount, List.count_append]

theorem UploadLoop_succ_retry {σ : Type} (env : Env) (agent : Agent σ) (res : Resource)
    (link : String) (post : Bool) (hdr : Header) (meta : String) (n : Nat) (retrying : Bool)
    (s s1 : σ) (file : File) (pos : Nat) (events : List Event)
    (h : UploadAttempt agent link post hdr meta s (if retrying then file.Seek 0 else file) =
      .retry s1 pos events) :
    ∃ file1,
      (UploadLoop env agent res link post hdr meta (n + 1) retrying s file).outcome =
        (UploadLoop env agent res link post hdr meta n true s1 file1).outcome ∧
      (UploadLoop env agent res link post hdr meta (n + 1) retrying s file).trace =
        (if retrying then [Event.seek 0, Event.sleep 2] else []) ++ events ++
          (UploadLoop env agent res link post hdr meta n true s1 file1).trace :=
  ⟨{ (if retrying then file.Seek 0 else file) with pos := pos },
    by simp only [UploadLoop, h], by simp only [UploadLoop, h]⟩

/-- A scripted pass that ends in a retryable failure uses up exactly its own
answers and issues one metadata request, no seek and no sleep. -/
theorem UploadAttempt_scripted_retry (link : String) (post : Bool) (hdr : Header)
    (meta : String) (a tail : List Scripted) (loc : String) (file : File)
    (ha : retryableAttempt a = true) :
    ∃ loc1 pos events,
      UploadAttempt scriptAgent link post hdr meta ⟨loc, a ++ tail⟩ file =
        .retry ⟨loc1, tail⟩ pos events ∧
      metaCount events = 1 ∧ seekCount events = 0 ∧ sleepCount events = 0 := by
  rcases a with _ | ⟨x, _ | ⟨y, _ | ⟨z, t⟩⟩⟩
  · simp [retryableAttempt] at ha
  · cases x <;> simp [retryableAttempt] at ha
    cases post <;>
      · simp only [UploadAttempt, scriptAgent, ScriptState.answer, Result.of, ha,
          List.cons_append, List.nil_append, if_true, Bool.false_eq_true, if_false]
        exact ⟨_, _, _, rfl, by simp [metaCount, requestsOf, isContentPut],
          by simp [seekCount], by simp [sleepCount]⟩
  · cases x <;> cases y <;> simp [retryableAttempt] at ha
    · cases post <;>
        · have h4 : (_ = (410 : Int) ∨ _ = (412 : Int)) := ha
          simp only [UploadAttempt, scriptAgent, ScriptState.answer, Result.of, h4,
            List.cons_append, List.nil_append, if_true, Bool.false_eq_true, if_false]
          exact ⟨_, _, _, rfl, by simp [metaCount, requestsOf, isContentPut],
            by simp [seekCount], by simp [sleepCount]⟩
    · cases post <;>
        · simp only [UploadAttempt, scriptAgent, ScriptState.answer, Result.of, ha,
            List.cons_append, List.nil_append, if_true, Bool.false_eq_true, if_false]
          exact ⟨_, _, _, rfl, by simp [metaCount, requestsOf, isContentPut],
            by simp [seekCount], by simp [sleepCount]⟩
  · cases x <;> cases y <;> simp [retryableAttempt] at ha

/-- With a scripted transport whose answers make the first passes end in a
retryable failure and the next pass complete, the loop returns true after one
metadata request per pass and one seek and one sleep per retry. -/
theorem UploadLoop_scripted (env : Env) (res : Resource) (link : String) (post : Bool)
    (hdr : Header) (meta : String) (last rest : List Scripted) (extra : Nat)
    (hlast : completingAttempt last = true) :
    ∀ (fails : List (List Scripted)), (∀ a ∈ fails, retryableAttempt a = true) →
      ∀ (retrying : Bool) (loc : String) (file : File),
        (UploadLoop env scriptAgent res link post hdr meta (fails.length + 1 + extra) retrying
          ⟨loc, fails.flatten ++ (last ++ rest)⟩ file).outcome = some (Outcome.returned true) ∧
        metaCount (UploadLoop env scriptAgent res link post hdr meta
          (fails.length + 1 + extra) retrying
          ⟨loc, fails.flatten ++ (last ++ rest)⟩ file).trace = fails.length + 1 ∧
        seekCount (UploadLoop env scriptAgent res link post hdr meta
          (fails.length + 1 + extra) retrying
          ⟨loc, fails.flatten ++ (last ++ rest)⟩ file).trace =
            fails.length + (if retrying then 1 else 0) ∧
        sleepCount (UploadLoop env scriptAgent res link post hdr meta
          (fails.length + 1 + extra) retrying
          ⟨loc, fails.flatten ++ (last ++ rest)⟩ file).trace =
            fails.length + (if retrying then 1 else 0) := by
  intro fails
  induction fails with
  | nil =>
    intro _ retrying loc file
    have hfuel : ([] : List (List Scripted)).length + 1 + extra = extra + 1 := by
      simp [Nat.add_comm]
    rw [hfuel]
    rcases last with _ | ⟨x, _ | ⟨y, _ | ⟨z, t⟩⟩⟩
    · simp [completingAttempt] at hlast
    · cases x <;> simp [completingAttempt] at hlast
    · cases x <;> cases y <;> simp [completingAttempt] at hlast
      cases retrying <;> cases post <;>
        simp [UploadLoop, UploadAttempt, scriptAgent, ScriptState.answer, Result.of,
          metaCount, seekCount, sleepCount, requestsOf, isContentPut, hlast, File.Seek]
    · cases x <;> cases y <;> simp [completingAttempt] at hlast
  | cons a fails ih =>
    intro hall retrying loc file
    have ha : retryableAttempt a = true := hall a (by simp)
    have hrest : ∀ b ∈ fails, retryableAttempt b = true := fun b hb => hall b (by simp [hb])
    have hfuel : (a :: fails).length + 1 + extra = (fails.length + 1 + extra) + 1 := by
      simp only [List.length_cons]
      omega
    rw [hfuel]
    obtain ⟨loc1, pos, events, hstep, hm, hs, hz⟩ :=
      UploadAttempt_scripted_retry link post hdr meta a (fails.flatten ++ (last ++ rest)) loc
        (if retrying then file.Seek 0 else file) ha
    have hscript : (a :: fails).flatten ++ (last ++ rest) =
        a ++ (fails.flatten ++ (last ++ rest)) := by
      simp
    rw [hscript]
    obtain ⟨file1, hout, htrace⟩ := UploadLoop_succ_retry env scriptAgent res link post hdr meta
      (fails.length + 1 + extra) retrying _ _ file pos events hstep
    obtain ⟨hO, hM, hS, hZ⟩ := ih hrest true loc1 file1
    rw [hout, htrace]
    refine ⟨hO, ?_, ?_, ?_⟩
    · rw [metaCount_append, metaCount_append, hm, hM]
      cases retrying <;> simp [metaCount, requestsOf] <;> omega
    · rw [seekCount_append, seekCount_append, hs, hS]
      cases retrying <;> simp [seekCount]
      omega
    · rw [sleepCount_append, sleepCount_append, hz, hZ]
      cases retrying <;> simp [sleepCount]
      omega

/-- C9: the number of retries of `Upload` is set by the transport alone and has
no upper bound.  When the scripted answers make each of the first `n` passes
end in a retryable failure (the malformed-document error in either phase, or a
content status of 410 or 412) and the next pass complete its content PUT with
another status, then with fuel for at least `n + 1` passes `Upload` returns
true, having issued exactly `n + 1` metadata requests and performed exactly `n`
seeks to the start and `n` sleeps; hence for every bound there is a transport
under which `Upload` issues more metadata requests than the bound. -/
theorem Upload_retry_count {env : Env} {res : Resource} {link : String} {post : Bool}
    (fails : List (List Scripted)) (last rest : List Scripted) (extra : Nat) (loc : String)
    (hfails : ∀ a ∈ fails, retryableAttempt a = true)
    (hlast : completingAttempt last = true) :
    (Upload env scriptAgent res link post (fails.length + 1 + extra)
      ⟨loc, fails.flatten ++ (last ++ rest)⟩).outcome = some (Outcome.returned true) ∧
    metaCount (Upload env scriptAgent res link post (fails.length + 1 + extra)
      ⟨loc, fails.flatten ++ (last ++ rest)⟩).trace = fails.length + 1 ∧
    seekCount (Upload env scriptAgent res link post (fails.length + 1 + extra)
      ⟨loc, fails.flatten ++ (last ++ rest)⟩).trace = fails.length ∧
    sleepCount (Upload env scriptAgent res link post (fails.length + 1 + extra)
      ⟨loc, fails.flatten ++ (last ++ rest)⟩).trace = fails.length ∧
    (∀ bound : Nat, ∃ (script : List Scripted) (fuel : Nat),
      bound < metaCount (Upload env scriptAgent res link post fuel ⟨loc, script⟩).trace) := by
  have key := UploadLoop_scripted env res link post
    ["Content-Type: application/atom+xml",
     "X-Upload-Content-Type: application/octet-stream",
     "X-Upload-Content-Length: " ++ toString (env.fileSize res.attrs.Path),
     "If-Match: " ++ res.attrs.ETag,
     "Expect:"]
    (xml_meta res.attrs.Kind (env.xmlEscape res.attrs.Name))
  refine ⟨(key last rest extra hlast fails hfails false loc _).1,
    (key last rest extra hlast fails hfails false loc _).2.1,
    by simpa using (key last rest extra hlast fails hfails false loc _).2.2.1,
    by simpa using (key last rest extra hlast fails hfails false loc _).2.2.2, ?_⟩
  intro bound
  refine ⟨(List.replicate bound [Scripted.raise xmlParseError 0]).flatten ++
      ([Scripted.reply 200 "" "" 0, Scripted.reply 201 "" "" 0] ++ []),
    (List.replicate bound [Scripted.raise xmlParseError 0]).length + 1 + 0, ?_⟩
  have h := (key [Scripted.reply 200 "" "" 0, Scripted.reply 201 "" "" 0] [] 0 (by decide)
    (List.replicate bound [Scripted.raise xmlParseError 0])
    (fun a ha => by rw [List.eq_of_mem_replicate ha]; decide) false loc
    ⟨res.attrs.Path, env.fileSize res.attrs.Path, 0⟩).2.1
  simp only [Upload]
  rw [h]
  simp

/-- C9, at a script whose first pass ends in a content status of 412 and whose
second pass completes: two metadata requests, one seek, one sleep, success. -/
theorem Upload_retry_count_witness :
    (Upload sampleEnv scriptAgent sampleFile "L" true 2
      ⟨"", [.reply 200 "" "S" 0, .reply 412 "" "" 1024, .reply 200 "" "S2" 0,
        .reply 201 "e1" "" 1024]⟩).outcome = some (Outcome.returned true) ∧
    metaCount (Upload sampleEnv scriptAgent sampleFile "L" true 2
      ⟨"", [.reply 200 "" "S" 0, .reply 412 "" "" 1024, .reply 200 "" "S2" 0,
        .reply 201 "e1" "" 1024]⟩).trace = 2 ∧
    seekCount (Upload sampleEnv scriptAgent sampleFile "L" true 2
      ⟨"", [.reply 200 "" "S" 0, .reply 412 "" "" 1024, .reply 200 "" "S2" 0,
        .reply 201 "e1" "" 1024]⟩).trace = 1 ∧
    sleepCount (Upload sampleEnv scriptAgent sampleFile "L" true 2
      ⟨"", [.reply 200 "" "S" 0, .reply 412 "" "" 1024, .reply 200 "" "S2" 0,
        .reply 201 "e1" "" 1024]⟩).trace = 1 :=
  ⟨(Upload_retry_count [[.reply 200 "" "S" 0, .reply 412 "" "" 1024]]
      [.reply 200 "" "S2" 0, .reply 201 "e1" "" 1024] [] 0 "" (by decide) (by decide)).1,
   (Upload_retry_count [[.reply 200 "" "S" 0, .reply 412 "" "" 1024]]
      [.reply 200 "" "S2" 0, .reply 201 "e1" "" 1024] [] 0 "" (by decide) (by decide)).2.1,
   (Upload_retry_count [[.reply 200 "" "S" 0, .reply 412 "" "" 1024]]
      [.reply 200 "" "S2" 0, .reply 201 "e1" "" 1024] [] 0 "" (by decide) (by decide)).2.2.1,
   (Upload_retry_count [[.reply 200 "" "S" 0, .reply 412 "" "" 1024]]
      [.reply 200 "" "S2" 0, .reply 201 "e1" "" 1024] [] 0 "" (by decide) (by decide)).2.2.2.1⟩

end Syncer1
